import Mathlib

/-!
Shallow embedding of `CV-2-04/combine_masks.py`: the `ColorMask` container,
mask derivation (`create_mask`), multi-mask union (`combine_masks`) and the
masked apply step (`apply_mask`), together with the OpenCV primitives the
code calls (`cv2.inRange`, `cv2.bitwise_or`, `cv2.bitwise_and` with a mask).

Images are rasters modelled as lists of rows; a 3-channel pixel is a triple
of integers (uint8 channel values embedded into `Int`), a mask pixel is a
`Nat` (0 or 255 in every mask the code produces).  Fallible operations
(`raise ValueError` in Python) return `Except String`.
-/

namespace CombineMasks

/-- A 3-component vector (one HSV or BGR pixel, or one HSV bound). -/
abbrev Vec3 := Int × Int × Int

/-- A 3-channel raster in HSV order: a list of rows of pixels. -/
abbrev HSVImage := List (List Vec3)

/-- A 3-channel raster in BGR order: a list of rows of pixels. -/
abbrev BGRImage := List (List Vec3)

/-- A single-channel raster (binary mask): a list of rows of `Nat` values. -/
abbrev Mask := List (List Nat)

/-- Componentwise inclusive range test of one pixel against lower/upper
bounds: the per-pixel test performed by `cv2.inRange`. -/
def inRangeQ (lower upper p : Vec3) : Bool :=
  decide (lower.1 ≤ p.1 ∧ p.1 ≤ upper.1 ∧
          lower.2.1 ≤ p.2.1 ∧ p.2.1 ≤ upper.2.1 ∧
          lower.2.2 ≤ p.2.2 ∧ p.2.2 ≤ upper.2.2)

/-- `cv2.inRange(image, lower, upper)`: single-channel output of the same
height and width, 255 where all three components are within the inclusive
bounds, 0 elsewhere. -/
def cv2_inRange (image : HSVImage) (lower upper : Vec3) : Mask :=
  image.map (fun row => row.map (fun p => if inRangeQ lower upper p then 255 else 0))

/-- `cv2.bitwise_or(m1, m2)` on two single-channel rasters of equal shape:
pixel-wise bitwise OR of the 8-bit values. -/
def cv2_bitwise_or (m1 m2 : Mask) : Mask :=
  (m1.zip m2).map (fun rr => (rr.1.zip rr.2).map (fun ab => Nat.lor ab.1 ab.2))

/-- `cv2.bitwise_and(image, image, mask=mask)`: the destination is freshly
allocated (zero-initialised); where the mask value is nonzero the output
pixel is `image AND image = image`, elsewhere it stays all-zero. -/
def cv2_bitwise_and_self_masked (image : BGRImage) (mask : Mask) : BGRImage :=
  (image.zip mask).map (fun rm =>
    (rm.1.zip rm.2).map (fun pv => if pv.2 ≠ 0 then pv.1 else ((0 : Int), (0 : Int), (0 : Int))))

/-- The `ColorMask` class: a colour name and the ordered list of stored
HSV range pairs (`self.hsv_ranges`). -/
structure ColorMask where
  name : String
  hsv_ranges : List (Vec3 × Vec3)
deriving DecidableEq, Repr

/-- `ColorMask.add_hsv_range(self, hsv_range)`: validates that the supplied
tuple has exactly two members and that each bound is a 3-component vector,
then appends the pair.  The argument is modelled as a list of integer
vectors (an arbitrary tuple of arbitrary-shape integer arrays); on success
the two 3-component bounds are stored as a pair of triples. -/
def ColorMask.add_hsv_range (cm : ColorMask) (hsv_range : List (List Int)) :
    Except String ColorMask :=
  if hsv_range.length ≠ 2 then
    .error "hsv_range должен содержать (LOWER, UPPER)"
  else if hsv_range.any (fun v => v.length ≠ 3) then
    .error "Каждая граница HSV должна быть вектором из 3 чисел"
  else
    let lower := hsv_range.headD []
    let upper := (hsv_range.drop 1).headD []
    .ok { cm with hsv_ranges := cm.hsv_ranges ++
           [((lower.headD 0, (lower.drop 1).headD 0, (lower.drop 2).headD 0),
             (upper.headD 0, (upper.drop 1).headD 0, (upper.drop 2).headD 0))] }

/-- `ColorMask.create_mask(self, image_hsv)`: raises if no ranges are
stored; otherwise computes `cv2.inRange` for every stored pair and folds
the sub-masks together with `cv2.bitwise_or`, starting from the first. -/
def ColorMask.create_mask (cm : ColorMask) (image_hsv : HSVImage) :
    Except String Mask :=
  match cm.hsv_ranges with
  | [] => .error ("У маски " ++ cm.name ++ " нет диапазонов HSV")
  | r0 :: rest =>
      .ok ((rest.map (fun ru => cv2_inRange image_hsv ru.1 ru.2)).foldl
            cv2_bitwise_or (cv2_inRange image_hsv r0.1 r0.2))

/-- `combine_masks(masks, image_hsv)`: raises on an empty list; otherwise
derives the first ColorMask's mask and folds the remaining ones in with
`cv2.bitwise_or`. -/
def combine_masks (masks : List ColorMask) (image_hsv : HSVImage) :
    Except String Mask :=
  match masks with
  | [] => .error "Список масок пуст"
  | cm0 :: rest => do
      let first ← cm0.create_mask image_hsv
      rest.foldlM (fun acc cm => do
        let m ← cm.create_mask image_hsv
        pure (cv2_bitwise_or acc m)) first

/-- `numpy` `.size` of a raster: the number of stored pixels (zero exactly
when the array is empty). -/
def npSize (a : List (List α)) : Nat := (a.map List.length).sum

/-- `numpy` `.shape[:2]` of a raster: (height, width). -/
def shape2 (a : List (List α)) : Nat × Nat := (a.length, (a.headD []).length)

/-- `apply_mask(image_bgr, mask)`: validates that neither input is `None`
or empty and that the two shapes agree (reporting both shapes otherwise),
then returns `cv2.bitwise_and(image_bgr, image_bgr, mask=mask)`. -/
def apply_mask (image_bgr : Option BGRImage) (mask : Option Mask) :
    Except String BGRImage :=
  match image_bgr with
  | none => .error "Входное изображение пустое или None"
  | some img =>
    if npSize img = 0 then .error "Входное изображение пустое или None"
    else
      match mask with
      | none => .error "Маска пустая или None"
      | some m =>
        if npSize m = 0 then .error "Маска пустая или None"
        else if shape2 img ≠ shape2 m then
          .error ("Размеры изображения " ++ toString (shape2 img) ++
                  " и маски " ++ toString (shape2 m) ++ " не совпадают")
        else .ok (cv2_bitwise_and_self_masked img m)

/-- Whether an `Except` result is a success (`.ok`). -/
def isOk : Except ε α → Bool
  | .ok _ => true
  | .error _ => false

/-- A mask assigning 255 to the pixels satisfying `q` and 0 to the rest:
the common shape of every mask the code builds. -/
def boolMask (q : Vec3 → Bool) (img : HSVImage) : Mask :=
  img.map (fun row => row.map (fun p => if q p then 255 else 0))

/-- Whether a pixel falls in at least one of a list of HSV range pairs. -/
def selRanges (rs : List (Vec3 × Vec3)) (p : Vec3) : Bool :=
  rs.any (fun ru => inRangeQ ru.1 ru.2 p)

/-- Whether a pixel is selected by at least one ColorMask in the list. -/
def selMasks (cms : List ColorMask) (p : Vec3) : Bool :=
  cms.any (fun cm => selRanges cm.hsv_ranges p)

/-- `create_red_mask()`: the ready-made red ColorMask; `+=` registers the
two hue ranges around the 0/180 wraparound. -/
def create_red_mask : ColorMask :=
  ColorMask.mk "red" [((0, 100, 100), (10, 255, 255)),
                      ((170, 100, 100), (180, 255, 255))]

/-- `create_blue_mask()`: the ready-made blue ColorMask with one range. -/
def create_blue_mask : ColorMask :=
  ColorMask.mk "blue" [((100, 100, 100), (130, 255, 255))]

/-- A tiny concrete HSV raster (one row: a red-hue, a blue-hue and a
green-hue pixel), used to evaluate the operations on closed inputs. -/
def sample_hsv : HSVImage := [[(5, 200, 200), (120, 200, 200), (60, 200, 200)]]

/-- A heap cell holding one allocated raster (3-channel or single-channel):
the mutable `numpy` arrays the program manipulates. -/
inductive CVArray where
  | bgr : BGRImage → CVArray
  | chan1 : Mask → CVArray
deriving DecidableEq, Repr

/-- A heap of allocated arrays; a raster is referred to by its index. -/
abbrev Store := List CVArray

/-- Read a reference as a 3-channel raster. -/
def readBGR (st : Store) (r : Nat) : Option BGRImage :=
  match st.get? r with
  | some (.bgr i) => some i
  | _ => none

/-- Read a reference as a single-channel raster. -/
def readMask (st : Store) (r : Nat) : Option Mask :=
  match st.get? r with
  | some (.chan1 m) => some m
  | _ => none

/-- Heap-level view of `apply_mask`: the inputs are references into the
store of allocated arrays; `cv2.bitwise_and` is called without a `dst`
argument, so on success it allocates a fresh array for the result and
writes no existing cell. -/
def apply_mask_st (st : Store) (imgRef maskRef : Nat) :
    Except String (Store × Nat) :=
  match apply_mask (readBGR st imgRef) (readMask st maskRef) with
  | .error e => .error e
  | .ok out => .ok (st ++ [CVArray.bgr out], st.length)

end CombineMasks

namespace CombineMasks

/-- `cv2.inRange` is the indicator mask of its range test. -/
theorem cv2_inRange_eq_boolMask (img : HSVImage) (l u : Vec3) :
    cv2_inRange img l u = boolMask (inRangeQ l u) img := rfl

theorem boolMask_congr {q r : Vec3 → Bool} (h : ∀ p, q p = r p)
    (img : HSVImage) : boolMask q img = boolMask r img := by
  unfold boolMask
  refine List.map_congr_left (fun row _ => ?_)
  exact List.map_congr_left (fun p _ => by rw [h])

theorem lor_indicator (a b : Bool) :
    Nat.lor (if a then 255 else 0) (if b then 255 else 0)
      = if (a || b) then 255 else 0 := by
  cases a <;> cases b <;> decide

/-- OR of two indicator masks over the same image is the indicator mask of
the disjunction. -/
theorem cv2_bitwise_or_boolMask (q r : Vec3 → Bool) (img : HSVImage) :
    cv2_bitwise_or (boolMask q img) (boolMask r img)
      = boolMask (fun p => q p || r p) img := by
  unfold cv2_bitwise_or boolMask
  rw [List.zip_map', List.map_map]
  refine List.map_congr_left (fun row _ => ?_)
  simp only [Function.comp]
  rw [List.zip_map', List.map_map]
  refine List.map_congr_left (fun p _ => ?_)
  simp only [Function.comp]
  exact lor_indicator (q p) (r p)

/-- Folding sub-masks with `cv2.bitwise_or` accumulates the disjunction of
the range tests. -/
theorem foldl_or_boolMask (img : HSVImage) :
    ∀ (rs : List (Vec3 × Vec3)) (q : Vec3 → Bool),
      (rs.map (fun ru => cv2_inRange img ru.1 ru.2)).foldl cv2_bitwise_or
        (boolMask q img)
      = boolMask (fun p => q p || selRanges rs p) img := by
  intro rs
  induction rs with
  | nil =>
      intro q
      simp only [List.map_nil, List.foldl_nil]
      exact boolMask_congr (fun p => by simp [selRanges]) img
  | cons r rs ih =>
      intro q
      simp only [List.map_cons, List.foldl_cons]
      rw [cv2_inRange_eq_boolMask, cv2_bitwise_or_boolMask, ih]
      refine boolMask_congr (fun p => ?_) img
      simp [selRanges, Bool.or_assoc]

/-- Normal form of `create_mask` on a ColorMask with at least one range:
the indicator mask of membership in any stored range. -/
theorem create_mask_eq_boolMask (cm : ColorMask) (img : HSVImage)
    (h : cm.hsv_ranges ≠ []) :
    cm.create_mask img = .ok (boolMask (selRanges cm.hsv_ranges) img) := by
  match hr : cm.hsv_ranges with
  | [] => exact absurd hr h
  | r0 :: rest =>
      have hstep : cm.create_mask img
          = .ok ((rest.map (fun ru => cv2_inRange img ru.1 ru.2)).foldl
                cv2_bitwise_or (cv2_inRange img r0.1 r0.2)) := by
        unfold ColorMask.create_mask
        rw [hr]
      rw [hstep, cv2_inRange_eq_boolMask, foldl_or_boolMask]
      refine congrArg Except.ok (boolMask_congr (fun p => ?_) img)
      simp [selRanges]

theorem ok_bind (a : α) (f : α → Except ε β) :
    (Except.ok a >>= f) = f a := rfl

theorem pure_eq_ok (a : α) : (pure a : Except ε α) = Except.ok a := rfl

/-- Folding ColorMask-derived masks with `cv2.bitwise_or` in the `Except`
monad accumulates the disjunction of the per-ColorMask selections. -/
theorem foldlM_or_boolMask (img : HSVImage) :
    ∀ (cms : List ColorMask), (∀ cm ∈ cms, cm.hsv_ranges ≠ []) →
      ∀ q : Vec3 → Bool,
      cms.foldlM (fun acc cm => do
          let m ← cm.create_mask img
          pure (cv2_bitwise_or acc m)) (boolMask q img)
        = .ok (boolMask (fun p => q p || selMasks cms p) img) := by
  intro cms
  induction cms with
  | nil =>
      intro _ q
      have hq : boolMask (fun p => q p || selMasks [] p) img = boolMask q img :=
        boolMask_congr (fun p => by simp [selMasks]) img
      rw [List.foldlM_nil, hq, pure_eq_ok]
  | cons cm cms ih =>
      intro hall q
      have h1 : cm.hsv_ranges ≠ [] := hall cm (by simp)
      rw [List.foldlM_cons]
      simp only [create_mask_eq_boolMask cm img h1, ok_bind, pure_bind,
        cv2_bitwise_or_boolMask]
      rw [ih (fun c hc => hall c (by simp [hc])) _]
      refine congrArg Except.ok (boolMask_congr (fun p => ?_) img)
      simp [selMasks, Bool.or_assoc]

/-- Normal form of `combine_masks` on a non-empty list of ColorMasks each
holding at least one range: the indicator mask of membership in any range
of any ColorMask. -/
theorem combine_masks_eq_boolMask (cms : List ColorMask) (img : HSVImage)
    (hne : cms ≠ []) (hall : ∀ cm ∈ cms, cm.hsv_ranges ≠ []) :
    combine_masks cms img = .ok (boolMask (selMasks cms) img) := by
  match cms with
  | [] => exact absurd rfl hne
  | cm0 :: rest =>
      have h0 : cm0.hsv_ranges ≠ [] := hall cm0 (by simp)
      have hstep : combine_masks (cm0 :: rest) img
          = (cm0.create_mask img >>= fun first =>
              rest.foldlM (fun acc cm => do
                let m ← cm.create_mask img
                pure (cv2_bitwise_or acc m)) first) := rfl
      rw [hstep, create_mask_eq_boolMask cm0 img h0, ok_bind]
      rw [foldlM_or_boolMask img rest (fun c hcm => hall c (by simp [hcm]))]
      refine congrArg Except.ok (boolMask_congr (fun p => ?_) img)
      simp [selMasks]

/-- `List.any` is invariant under permutation of the list. -/
theorem perm_any {l₁ l₂ : List α} (h : l₁.Perm l₂) (f : α → Bool) :
    l₁.any f = l₂.any f := by
  rw [List.any_eq, List.any_eq, decide_eq_decide]
  constructor
  · rintro ⟨x, hx, hf⟩
    exact ⟨x, h.mem_iff.mp hx, hf⟩
  · rintro ⟨x, hx, hf⟩
    exact ⟨x, h.mem_iff.mpr hx, hf⟩

/-- Every pixel of a `boolMask` is 0 or 255. -/
theorem boolMask_values (q : Vec3 → Bool) (img : HSVImage) :
    ∀ row ∈ boolMask q img, ∀ v ∈ row, v = 0 ∨ v = 255 := by
  intro row hrow v hv
  rcases List.mem_map.mp hrow with ⟨irow, _, hmapr⟩
  rcases List.mem_map.mp (hmapr ▸ hv) with ⟨p, _, hmapv⟩
  cases hq : q p <;> simp [hq] at hmapv <;> omega

/-- OR-ing an indicator mask with itself changes nothing. -/
theorem cv2_bitwise_or_boolMask_self (q : Vec3 → Bool) (img : HSVImage) :
    cv2_bitwise_or (boolMask q img) (boolMask q img) = boolMask q img := by
  rw [cv2_bitwise_or_boolMask]
  exact boolMask_congr (fun p => Bool.or_self (q p)) img

/-- C1: on a ColorMask holding exactly one range pair (L, U), `create_mask`
succeeds and returns a single-channel mask with the same number of rows as
the input image, each row as long as the corresponding image row, in which
a pixel is 255 ("selected") iff the corresponding source pixel's hue,
saturation and value each lie within [L, U] inclusive component-wise, and
every pixel is either 255 or 0. -/
theorem claim_C1 (name : String) (L U : Vec3) (img : HSVImage) :
    ∃ m : Mask, (ColorMask.mk name [(L, U)]).create_mask img = .ok m ∧
      m.length = img.length ∧
      List.Forall₂ (fun (mrow : List Nat) (irow : List Vec3) =>
        List.Forall₂ (fun (mv : Nat) (p : Vec3) =>
          (mv = 255 ↔ (L.1 ≤ p.1 ∧ p.1 ≤ U.1 ∧ L.2.1 ≤ p.2.1 ∧ p.2.1 ≤ U.2.1 ∧
                        L.2.2 ≤ p.2.2 ∧ p.2.2 ≤ U.2.2)) ∧
          (mv = 255 ∨ mv = 0)) mrow irow) m img := by
  refine ⟨boolMask (selRanges [(L, U)]) img,
    create_mask_eq_boolMask _ img (by simp), by simp [boolMask], ?_⟩
  have hsel : ∀ p : Vec3, selRanges [(L, U)] p = inRangeQ L U p := by
    intro p
    simp [selRanges]
  unfold boolMask
  rw [List.forall₂_map_left_iff, List.forall₂_same]
  intro row _
  rw [List.forall₂_map_left_iff, List.forall₂_same]
  intro p _
  simp only [hsel, inRangeQ]
  by_cases hc : (L.1 ≤ p.1 ∧ p.1 ≤ U.1 ∧ L.2.1 ≤ p.2.1 ∧ p.2.1 ≤ U.2.1 ∧
                  L.2.2 ≤ p.2.2 ∧ p.2.2 ≤ U.2.2)
  · simp [hc]
  · simp [hc]

/-- C2: on a ColorMask with two or more stored range pairs, `create_mask`
succeeds; each stored pair, registered alone in a one-range ColorMask,
yields exactly `cv2_inRange` for that pair; the combined mask is the fold
of those per-pair masks under pixel-wise `cv2.bitwise_or`; the result is
binary (every pixel 0 or 255), so overlapping ranges leave the same binary
result as disjoint ones, and OR-ing the result with itself is the identity
(no double-counting). -/
theorem claim_C2 (name : String) (r1 r2 : Vec3 × Vec3)
    (rs : List (Vec3 × Vec3)) (img : HSVImage) :
    ∃ m : Mask, (ColorMask.mk name (r1 :: r2 :: rs)).create_mask img = .ok m ∧
      (∀ ru ∈ r1 :: r2 :: rs,
        (ColorMask.mk name [ru]).create_mask img
          = .ok (cv2_inRange img ru.1 ru.2)) ∧
      m = ((r2 :: rs).map (fun ru => cv2_inRange img ru.1 ru.2)).foldl
            cv2_bitwise_or (cv2_inRange img r1.1 r1.2) ∧
      (∀ row ∈ m, ∀ v ∈ row, v = 0 ∨ v = 255) ∧
      cv2_bitwise_or m m = m := by
  have hdef : (ColorMask.mk name (r1 :: r2 :: rs)).create_mask img
      = .ok (((r2 :: rs).map (fun ru => cv2_inRange img ru.1 ru.2)).foldl
              cv2_bitwise_or (cv2_inRange img r1.1 r1.2)) := rfl
  have hnf := create_mask_eq_boolMask (ColorMask.mk name (r1 :: r2 :: rs)) img
    (by simp)
  have hfold : ((r2 :: rs).map (fun ru => cv2_inRange img ru.1 ru.2)).foldl
        cv2_bitwise_or (cv2_inRange img r1.1 r1.2)
      = boolMask (selRanges (r1 :: r2 :: rs)) img :=
    Except.ok.inj (hdef.symm.trans hnf)
  refine ⟨boolMask (selRanges (r1 :: r2 :: rs)) img, hnf,
    fun ru _ => rfl, hfold.symm, boolMask_values _ img,
    cv2_bitwise_or_boolMask_self _ img⟩

/-- C3: `create_mask` on a ColorMask with zero stored ranges fails with a
validation error naming the mask, and never returns a mask. -/
theorem claim_C3 (name : String) (img : HSVImage) :
    (ColorMask.mk name []).create_mask img
        = .error ("У маски " ++ name ++ " нет диапазонов HSV") ∧
      isOk ((ColorMask.mk name []).create_mask img) = false :=
  ⟨rfl, rfl⟩

/-- C4: `combine_masks` on an empty list of ColorMasks fails with a
validation error and never returns a mask. -/
theorem claim_C4 (img : HSVImage) :
    combine_masks [] img = .error "Список масок пуст" ∧
      isOk (combine_masks [] img) = false :=
  ⟨rfl, rfl⟩

/-- C5: for a non-empty list of ColorMasks, each holding at least one
range, and a fixed HSV image, `combine_masks` returns the same mask for
every permutation of the list, and that mask is the indicator of "some
ColorMask in the list selects this pixel" (the pixel-wise OR of the
individual `create_mask` results). -/
theorem claim_C5 (ms1 ms2 : List ColorMask) (img : HSVImage)
    (hperm : ms1.Perm ms2) (hne : ms1 ≠ [])
    (hall : ∀ cm ∈ ms1, cm.hsv_ranges ≠ []) :
    combine_masks ms1 img = combine_masks ms2 img ∧
    ∃ m : Mask, combine_masks ms1 img = .ok m ∧
      List.Forall₂ (fun (mrow : List Nat) (irow : List Vec3) =>
        List.Forall₂ (fun (mv : Nat) (p : Vec3) =>
          mv = if selMasks ms1 p then 255 else 0) mrow irow) m img := by
  have hne2 : ms2 ≠ [] := by
    intro h
    exact hne (by simpa [h] using hperm)
  have hall2 : ∀ cm ∈ ms2, cm.hsv_ranges ≠ [] :=
    fun cm hc => hall cm (hperm.mem_iff.mpr hc)
  have h1 := combine_masks_eq_boolMask ms1 img hne hall
  have h2 := combine_masks_eq_boolMask ms2 img hne2 hall2
  constructor
  · rw [h1, h2]
    refine congrArg Except.ok (boolMask_congr (fun p => ?_) img)
    exact perm_any hperm _
  · refine ⟨boolMask (selMasks ms1) img, h1, ?_⟩
    unfold boolMask
    rw [List.forall₂_map_left_iff, List.forall₂_same]
    intro row _
    rw [List.forall₂_map_left_iff, List.forall₂_same]
    intro p _
    rfl

/-- Row-length agreement pushes through to the per-row length lists. -/
theorem forall₂_length_map {l₁ : List (List α)} {l₂ : List (List β)}
    (e : List.Forall₂ (fun r s => r.length = s.length) l₁ l₂) :
    l₁.map List.length = l₂.map List.length := by
  induction e with
  | nil => rfl
  | cons h _ ih => simp [h, ih]

theorem headD_length (a : List (List α)) :
    (a.headD []).length = (a.map List.length).headD 0 := by
  cases a <;> rfl

/-- Row-length agreement gives equal `numpy` shapes. -/
theorem forall₂_shape2 {l₁ : List (List α)} {l₂ : List (List β)}
    (e : List.Forall₂ (fun r s => r.length = s.length) l₁ l₂) :
    shape2 l₁ = shape2 l₂ := by
  unfold shape2
  rw [Prod.ext_iff]
  exact ⟨e.length_eq, by rw [headD_length, headD_length, forall₂_length_map e]⟩

/-- Row-length agreement gives equal `numpy` sizes. -/
theorem forall₂_npSize {l₁ : List (List α)} {l₂ : List (List β)}
    (e : List.Forall₂ (fun r s => r.length = s.length) l₁ l₂) :
    npSize l₁ = npSize l₂ := by
  unfold npSize
  rw [forall₂_length_map e]

/-- On a non-empty image and a mask of agreeing row lengths, `apply_mask`
passes validation and returns the masked bitwise AND. -/
theorem apply_mask_ok (img : BGRImage) (m : Mask)
    (hs : npSize img ≠ 0)
    (e : List.Forall₂ (fun (r : List Vec3) (s : List Nat) => r.length = s.length) img m) :
    apply_mask (some img) (some m)
      = .ok (cv2_bitwise_and_self_masked img m) := by
  have hsz : npSize m ≠ 0 := by
    rw [← forall₂_npSize e]
    exact hs
  have hsh : shape2 img = shape2 m := forall₂_shape2 e
  simp only [apply_mask]
  rw [if_neg hs, if_neg hsz, if_neg (not_not_intro hsh)]

/-- C6: `apply_mask` fails with a validation error, returning no raster,
whenever the image is absent or empty, the mask is absent or empty, or
the two shapes differ; in the shape-mismatch case the error message names
both offending shapes. -/
theorem claim_C6 (img img0 : BGRImage) (m m0 : Mask)
    (h0 : npSize img0 = 0) (hi : npSize img ≠ 0)
    (hm0 : npSize m0 = 0) (hm : npSize m ≠ 0)
    (hsh : shape2 img ≠ shape2 m) :
    apply_mask none (some m) = .error "Входное изображение пустое или None" ∧
    apply_mask none none = .error "Входное изображение пустое или None" ∧
    apply_mask (some img0) (some m) = .error "Входное изображение пустое или None" ∧
    apply_mask (some img) none = .error "Маска пустая или None" ∧
    apply_mask (some img) (some m0) = .error "Маска пустая или None" ∧
    apply_mask (some img) (some m)
      = .error ("Размеры изображения " ++ toString (shape2 img) ++
                " и маски " ++ toString (shape2 m) ++ " не совпадают") ∧
    isOk (apply_mask (some img) (some m)) = false ∧
    isOk (apply_mask (some img0) (some m)) = false ∧
    isOk (apply_mask (some img) (some m0)) = false := by
  refine ⟨rfl, rfl, by simp [apply_mask, h0], by simp [apply_mask, hi],
    by simp [apply_mask, hi, hm0], by simp [apply_mask, hi, hm, hsh],
    by simp [apply_mask, hi, hm, hsh, isOk], by simp [apply_mask, h0, isOk],
    by simp [apply_mask, hi, hm0, isOk]⟩

theorem row_and_all_nonzero :
    ∀ (r : List Vec3) (s : List Nat), r.length = s.length →
      (∀ v ∈ s, v ≠ 0) →
      (r.zip s).map (fun pv =>
          if pv.2 ≠ 0 then pv.1 else ((0 : Int), (0 : Int), (0 : Int))) = r := by
  intro r
  induction r with
  | nil =>
      intro s _ _
      simp
  | cons p pr ih =>
      intro s hlen hnz
      cases s with
      | nil => simp at hlen
      | cons v vs =>
          simp only [List.zip_cons_cons, List.map_cons]
          rw [if_pos (hnz v (by simp)),
            ih vs (by simpa using hlen) (fun w hw => hnz w (by simp [hw]))]

theorem row_and_all_zero :
    ∀ (r : List Vec3) (s : List Nat), r.length = s.length →
      (∀ v ∈ s, v = 0) →
      (r.zip s).map (fun pv =>
          if pv.2 ≠ 0 then pv.1 else ((0 : Int), (0 : Int), (0 : Int)))
        = r.map (fun _ => ((0 : Int), (0 : Int), (0 : Int))) := by
  intro r
  induction r with
  | nil =>
      intro s _ _
      simp
  | cons p pr ih =>
      intro s hlen hz
      cases s with
      | nil => simp at hlen
      | cons v vs =>
          simp only [List.zip_cons_cons, List.map_cons]
          rw [if_neg (by simp [hz v (by simp)]),
            ih vs (by simpa using hlen) (fun w hw => hz w (by simp [hw]))]

theorem row_and_pointwise :
    ∀ (r : List Vec3) (s : List Nat), r.length = s.length →
      List.Forall₂ (fun (q p : Vec3) => q = p ∨ q = ((0 : Int), (0 : Int), (0 : Int)))
        ((r.zip s).map (fun pv =>
          if pv.2 ≠ 0 then pv.1 else ((0 : Int), (0 : Int), (0 : Int)))) r := by
  intro r
  induction r with
  | nil =>
      intro s _
      simp
  | cons p pr ih =>
      intro s hlen
      cases s with
      | nil => simp at hlen
      | cons v vs =>
          simp only [List.zip_cons_cons, List.map_cons]
          refine List.Forall₂.cons ?_ (ih vs (by simpa using hlen))
          by_cases hv : v ≠ 0
          · rw [if_pos hv]
            exact Or.inl rfl
          · rw [if_neg hv]
            exact Or.inr rfl

theorem masked_and_all_nonzero {img : BGRImage} {m : Mask}
    (e : List.Forall₂ (fun (r : List Vec3) (s : List Nat) => r.length = s.length) img m)
    (hnz : ∀ row ∈ m, ∀ v ∈ row, v ≠ 0) :
    cv2_bitwise_and_self_masked img m = img := by
  induction e with
  | nil => rfl
  | cons hlen etail ih =>
      unfold cv2_bitwise_and_self_masked
      simp only [List.zip_cons_cons, List.map_cons]
      congr 1
      · exact row_and_all_nonzero _ _ hlen (fun v hv => hnz _ (by simp) v hv)
      · exact ih (fun row hrow v hv => hnz row (by simp [hrow]) v hv)

theorem masked_and_all_zero {img : BGRImage} {m : Mask}
    (e : List.Forall₂ (fun (r : List Vec3) (s : List Nat) => r.length = s.length) img m)
    (hz : ∀ row ∈ m, ∀ v ∈ row, v = 0) :
    cv2_bitwise_and_self_masked img m
      = img.map (fun row => row.map (fun _ => ((0 : Int), (0 : Int), (0 : Int)))) := by
  induction e with
  | nil => rfl
  | cons hlen etail ih =>
      unfold cv2_bitwise_and_self_masked
      simp only [List.zip_cons_cons, List.map_cons]
      congr 1
      · exact row_and_all_zero _ _ hlen (fun v hv => hz _ (by simp) v hv)
      · exact ih (fun row hrow v hv => hz row (by simp [hrow]) v hv)

theorem masked_and_pointwise {img : BGRImage} {m : Mask}
    (e : List.Forall₂ (fun (r : List Vec3) (s : List Nat) => r.length = s.length) img m) :
    List.Forall₂ (List.Forall₂ (fun (q p : Vec3) =>
        q = p ∨ q = ((0 : Int), (0 : Int), (0 : Int))))
      (cv2_bitwise_and_self_masked img m) img := by
  induction e with
  | nil => exact List.Forall₂.nil
  | cons hlen etail ih =>
      unfold cv2_bitwise_and_self_masked
      simp only [List.zip_cons_cons, List.map_cons]
      exact List.Forall₂.cons (row_and_pointwise _ _ hlen) ih

/-- C7: on a non-empty image and a shape-matching mask, `apply_mask`
returns the image itself when every mask pixel is 255 ("selected"), the
all-zero raster of the same shape when every mask pixel is 0, and in
general a raster in which every pixel is the original pixel or the
all-zero pixel. -/
theorem claim_C7 (img : BGRImage) (m1 m2 m3 : Mask)
    (hs : npSize img ≠ 0)
    (e1 : List.Forall₂ (fun (r : List Vec3) (s : List Nat) => r.length = s.length) img m1)
    (e2 : List.Forall₂ (fun (r : List Vec3) (s : List Nat) => r.length = s.length) img m2)
    (e3 : List.Forall₂ (fun (r : List Vec3) (s : List Nat) => r.length = s.length) img m3)
    (h1 : ∀ row ∈ m1, ∀ v ∈ row, v = 255)
    (h2 : ∀ row ∈ m2, ∀ v ∈ row, v = 0) :
    apply_mask (some img) (some m1) = .ok img ∧
    apply_mask (some img) (some m2)
      = .ok (img.map (fun row => row.map (fun _ => ((0 : Int), (0 : Int), (0 : Int))))) ∧
    ∃ res : BGRImage, apply_mask (some img) (some m3) = .ok res ∧
      List.Forall₂ (List.Forall₂ (fun (q p : Vec3) =>
        q = p ∨ q = ((0 : Int), (0 : Int), (0 : Int)))) res img := by
  refine ⟨?_, ?_, ?_⟩
  · rw [apply_mask_ok img m1 hs e1,
      masked_and_all_nonzero e1 (fun row hrow v hv => by simp [h1 row hrow v hv])]
  · rw [apply_mask_ok img m2 hs e2, masked_and_all_zero e2 h2]
  · exact ⟨cv2_bitwise_and_self_masked img m3, apply_mask_ok img m3 hs e3,
      masked_and_pointwise e3⟩

theorem zip_map_get (F : Vec3 × Nat → Vec3) :
    ∀ (r : List Vec3) (s : List Nat) (j : Nat) (p : Vec3) (v : Nat),
      r.get? j = some p → s.get? j = some v →
      ((r.zip s).map F).get? j = some (F (p, v)) := by
  intro r
  induction r with
  | nil =>
      intro s j p v hp _
      simp at hp
  | cons a r ih =>
      intro s j p v hp hv
      cases s with
      | nil => simp at hv
      | cons b s =>
          cases j with
          | zero =>
              simp only [List.get?_cons_zero, Option.some.injEq] at hp hv
              simp [hp, hv]
          | succ j =>
              simp only [List.zip_cons_cons, List.map_cons, List.get?_cons_succ]
              exact ih s j p v (by simpa using hp) (by simpa using hv)

theorem masked_and_get :
    ∀ (img : BGRImage) (m : Mask) (i j : Nat) (p : Vec3) (v : Nat),
      ((img.get? i).bind (fun r => r.get? j)) = some p →
      ((m.get? i).bind (fun r => r.get? j)) = some v →
      (((cv2_bitwise_and_self_masked img m).get? i).bind (fun r => r.get? j))
        = some (if v ≠ 0 then p else ((0 : Int), (0 : Int), (0 : Int))) := by
  intro img
  induction img with
  | nil =>
      intro m i j p v hp _
      simp at hp
  | cons r rs ih =>
      intro m i j p v hp hv
      cases m with
      | nil => simp at hv
      | cons s ss =>
          cases i with
          | zero =>
              simp only [List.get?_cons_zero, Option.some_bind] at hp hv
              unfold cv2_bitwise_and_self_masked
              simp only [List.zip_cons_cons, List.map_cons, List.get?_cons_zero,
                Option.some_bind]
              exact zip_map_get _ r s j p v hp hv
          | succ i =>
              simp only [List.get?_cons_succ] at hp hv
              unfold cv2_bitwise_and_self_masked
              simp only [List.zip_cons_cons, List.map_cons, List.get?_cons_succ]
              exact ih ss i j p v hp hv

/-- C10: on a non-empty image and a shape-matching single-channel mask,
`apply_mask` succeeds and the output keeps the source pixel exactly where
the mask value is nonzero — any nonzero value counts as selected — and is
the all-zero pixel exactly where the mask value is zero. -/
theorem claim_C10 (img : BGRImage) (m : Mask)
    (hs : npSize img ≠ 0)
    (e : List.Forall₂ (fun (r : List Vec3) (s : List Nat) => r.length = s.length) img m) :
    ∃ res : BGRImage, apply_mask (some img) (some m) = .ok res ∧
      ∀ (i j : Nat) (p : Vec3) (v : Nat),
        ((img.get? i).bind (fun r => r.get? j)) = some p →
        ((m.get? i).bind (fun r => r.get? j)) = some v →
        ((res.get? i).bind (fun r => r.get? j))
          = some (if v ≠ 0 then p else ((0 : Int), (0 : Int), (0 : Int))) :=
  ⟨cv2_bitwise_and_self_masked img m, apply_mask_ok img m hs e,
    fun i j p v hp hv => masked_and_get img m i j p v hp hv⟩

/-- C8: `add_hsv_range` validates at registration time: a pair without
exactly two bounds is rejected, a pair in which some bound is not a
3-component vector is rejected, and a well-formed pair is appended with no
error — for arbitrary bound values, so no lower ≤ upper check is made. -/
theorem claim_C8 (cm : ColorMask) (a b c d e f : Int)
    (r2 : List (List Int)) (h2 : r2.length ≠ 2)
    (r3 : List (List Int)) (h3a : r3.length = 2)
    (h3b : ∃ v ∈ r3, v.length ≠ 3) :
    cm.add_hsv_range [[a, b, c], [d, e, f]]
        = .ok (ColorMask.mk cm.name (cm.hsv_ranges ++ [((a, b, c), (d, e, f))])) ∧
    cm.add_hsv_range r2 = .error "hsv_range должен содержать (LOWER, UPPER)" ∧
    isOk (cm.add_hsv_range r2) = false ∧
    cm.add_hsv_range r3 = .error "Каждая граница HSV должна быть вектором из 3 чисел" ∧
    isOk (cm.add_hsv_range r3) = false := by
  refine ⟨rfl, ?_, ?_, ?_, ?_⟩
  · simp [ColorMask.add_hsv_range, h2]
  · simp [ColorMask.add_hsv_range, h2, isOk]
  · simp [ColorMask.add_hsv_range, h3a, h3b]
  · simp [ColorMask.add_hsv_range, h3a, h3b, isOk]

/-- C9: at the heap level, `apply_mask` is non-mutating: on success every
previously allocated array (in particular the source image and the mask)
still holds exactly its old value, and the result is a freshly allocated
array holding the value `apply_mask` computes from the inputs. -/
theorem claim_C9 (st : Store) (ir mr : Nat) (st' : Store) (res : Nat)
    (h : apply_mask_st st ir mr = .ok (st', res)) :
    (∀ k, k < st.length → st'.get? k = st.get? k) ∧
    readBGR st' ir = readBGR st ir ∧
    readMask st' mr = readMask st mr ∧
    res = st.length ∧ st'.length = st.length + 1 ∧
    (∃ img m out, readBGR st ir = some img ∧ readMask st mr = some m ∧
      apply_mask (some img) (some m) = .ok out ∧
      st'.get? res = some (CVArray.bgr out)) := by
  unfold apply_mask_st at h
  rcases hc : apply_mask (readBGR st ir) (readMask st mr) with err | out
  · rw [hc] at h
    exact absurd h (by simp)
  · rw [hc] at h
    have hst : st' = st ++ [CVArray.bgr out] ∧ res = st.length := by
      have := h
      simp only [Except.ok.injEq, Prod.mk.injEq] at this
      exact ⟨this.1.symm, this.2.symm⟩
    rcases hst with ⟨hst, hres⟩
    have hframe : ∀ k, k < st.length → st'.get? k = st.get? k := by
      intro k hk
      rw [hst, List.get?_append hk]
    have himg : ∃ img, readBGR st ir = some img := by
      rcases hbi : readBGR st ir with _ | img
      · rw [hbi] at hc
        exact absurd hc (by simp [apply_mask])
      · exact ⟨img, rfl⟩
    rcases himg with ⟨img, himg⟩
    have hmask : ∃ m, readMask st mr = some m := by
      rcases hbm : readMask st mr with _ | m
      · rw [himg, hbm] at hc
        by_cases hz : npSize img = 0
        · exact absurd hc (by simp [apply_mask, hz])
        · exact absurd hc (by simp [apply_mask, hz])
      · exact ⟨m, rfl⟩
    rcases hmask with ⟨m, hmask⟩
    have hirlt : ir < st.length := by
      by_contra hge
      have : st.get? ir = none := List.get?_eq_none.mpr (Nat.le_of_not_lt hge)
      rw [readBGR, this] at himg
      exact Option.noConfusion himg
    have hmrlt : mr < st.length := by
      by_contra hge
      have : st.get? mr = none := List.get?_eq_none.mpr (Nat.le_of_not_lt hge)
      rw [readMask, this] at hmask
      exact Option.noConfusion hmask
    refine ⟨hframe, ?_, ?_, hres, by rw [hst]; simp, img, m, out, himg,
      hmask, by rw [himg, hmask] at hc; exact hc, ?_⟩
    · rw [readBGR, readBGR, hframe ir hirlt]
    · rw [readMask, readMask, hframe mr hmrlt]
    · rw [hst, hres, List.get?_append_right (Nat.le_refl _)]
      simp

/-- Witness for C5 at the red and blue colour presets on a concrete image:
the two hypotheses hold and the permuted lists combine to the same mask. -/
theorem claim_C5_witness :
    [create_red_mask, create_blue_mask].Perm [create_blue_mask, create_red_mask] ∧
    [create_red_mask, create_blue_mask] ≠ ([] : List ColorMask) ∧
    (∀ cm ∈ [create_red_mask, create_blue_mask], cm.hsv_ranges ≠ []) ∧
    (combine_masks [create_red_mask, create_blue_mask] sample_hsv
        = combine_masks [create_blue_mask, create_red_mask] sample_hsv ∧
      ∃ m : Mask,
        combine_masks [create_red_mask, create_blue_mask] sample_hsv = .ok m ∧
        List.Forall₂ (fun (mrow : List Nat) (irow : List Vec3) =>
          List.Forall₂ (fun (mv : Nat) (p : Vec3) =>
            mv = if selMasks [create_red_mask, create_blue_mask] p then 255 else 0)
            mrow irow) m sample_hsv) :=
  ⟨by decide, by decide, by decide,
    claim_C5 _ _ _ (by decide) (by decide) (by decide)⟩

/-- Witness for C6 on concrete inputs: an empty image, an empty mask, and
a 1×1 image against a 2×1 mask. -/
theorem claim_C6_witness :
    npSize ([] : BGRImage) = 0 ∧
    npSize ([[(1, 2, 3)]] : BGRImage) ≠ 0 ∧
    npSize ([] : Mask) = 0 ∧
    npSize ([[0], [0]] : Mask) ≠ 0 ∧
    shape2 ([[(1, 2, 3)]] : BGRImage) ≠ shape2 ([[0], [0]] : Mask) ∧
    (apply_mask none (some [[0], [0]])
        = .error "Входное изображение пустое или None" ∧
      apply_mask none none = .error "Входное изображение пустое или None" ∧
      apply_mask (some []) (some [[0], [0]])
        = .error "Входное изображение пустое или None" ∧
      apply_mask (some [[(1, 2, 3)]]) none = .error "Маска пустая или None" ∧
      apply_mask (some [[(1, 2, 3)]]) (some [])
        = .error "Маска пустая или None" ∧
      apply_mask (some [[(1, 2, 3)]]) (some [[0], [0]])
        = .error ("Размеры изображения "
            ++ toString (shape2 ([[(1, 2, 3)]] : BGRImage)) ++ " и маски "
            ++ toString (shape2 ([[0], [0]] : Mask)) ++ " не совпадают") ∧
      isOk (apply_mask (some [[(1, 2, 3)]]) (some [[0], [0]])) = false ∧
      isOk (apply_mask (some []) (some [[0], [0]])) = false ∧
      isOk (apply_mask (some [[(1, 2, 3)]]) (some [])) = false) :=
  ⟨by decide, by decide, by decide, by decide, by decide,
    claim_C6 [[(1, 2, 3)]] [] [[0], [0]] []
      (by decide) (by decide) (by decide) (by decide) (by decide)⟩

/-- Witness for C7 on a concrete 1×2 image with an all-255 mask, an
all-zero mask and a mixed mask. -/
theorem claim_C7_witness :
    npSize ([[(1, 2, 3), (4, 5, 6)]] : BGRImage) ≠ 0 ∧
    List.Forall₂ (fun (r : List Vec3) (s : List Nat) => r.length = s.length)
      [[(1, 2, 3), (4, 5, 6)]] [[255, 255]] ∧
    List.Forall₂ (fun (r : List Vec3) (s : List Nat) => r.length = s.length)
      [[(1, 2, 3), (4, 5, 6)]] [[0, 0]] ∧
    List.Forall₂ (fun (r : List Vec3) (s : List Nat) => r.length = s.length)
      [[(1, 2, 3), (4, 5, 6)]] [[7, 0]] ∧
    (∀ row ∈ ([[255, 255]] : Mask), ∀ v ∈ row, v = 255) ∧
    (∀ row ∈ ([[0, 0]] : Mask), ∀ v ∈ row, v = 0) ∧
    (apply_mask (some [[(1, 2, 3), (4, 5, 6)]]) (some [[255, 255]])
        = .ok [[(1, 2, 3), (4, 5, 6)]] ∧
      apply_mask (some [[(1, 2, 3), (4, 5, 6)]]) (some [[0, 0]])
        = .ok (([[(1, 2, 3), (4, 5, 6)]] : BGRImage).map
            (fun row => row.map (fun _ => ((0 : Int), (0 : Int), (0 : Int))))) ∧
      ∃ res : BGRImage,
        apply_mask (some [[(1, 2, 3), (4, 5, 6)]]) (some [[7, 0]]) = .ok res ∧
        List.Forall₂ (List.Forall₂ (fun (q p : Vec3) =>
          q = p ∨ q = ((0 : Int), (0 : Int), (0 : Int))))
          res [[(1, 2, 3), (4, 5, 6)]]) :=
  ⟨by decide, by simp, by simp, by simp, by decide, by decide,
    claim_C7 [[(1, 2, 3), (4, 5, 6)]] [[255, 255]] [[0, 0]] [[7, 0]]
      (by decide) (by simp) (by simp) (by simp) (by decide) (by decide)⟩

/-- Witness for C8: a malformed one-member pair, a pair with a 2-component
bound, and a well-formed pair with inverted bounds (lower above upper),
which is accepted. -/
theorem claim_C8_witness :
    ([[1, 2, 3]] : List (List Int)).length ≠ 2 ∧
    ([[1, 2], [3, 4, 5]] : List (List Int)).length = 2 ∧
    (∃ v ∈ ([[1, 2], [3, 4, 5]] : List (List Int)), v.length ≠ 3) ∧
    ((ColorMask.mk "c" []).add_hsv_range [[10, 10, 10], [0, 0, 0]]
        = .ok (ColorMask.mk (ColorMask.mk "c" []).name
            ((ColorMask.mk "c" []).hsv_ranges ++ [((10, 10, 10), (0, 0, 0))])) ∧
      (ColorMask.mk "c" []).add_hsv_range [[1, 2, 3]]
        = .error "hsv_range должен содержать (LOWER, UPPER)" ∧
      isOk ((ColorMask.mk "c" []).add_hsv_range [[1, 2, 3]]) = false ∧
      (ColorMask.mk "c" []).add_hsv_range [[1, 2], [3, 4, 5]]
        = .error "Каждая граница HSV должна быть вектором из 3 чисел" ∧
      isOk ((ColorMask.mk "c" []).add_hsv_range [[1, 2], [3, 4, 5]]) = false) :=
  ⟨by decide, by decide, by decide,
    claim_C8 (ColorMask.mk "c" []) 10 10 10 0 0 0
      [[1, 2, 3]] (by decide) [[1, 2], [3, 4, 5]] (by decide) (by decide)⟩

/-- Witness for C9 on a concrete two-cell store: applying the mask at
reference 1 to the image at reference 0 appends one fresh cell and leaves
both old cells untouched. -/
theorem claim_C9_witness :
    apply_mask_st [CVArray.bgr [[(1, 2, 3)]], CVArray.chan1 [[255]]] 0 1
        = .ok ([CVArray.bgr [[(1, 2, 3)]], CVArray.chan1 [[255]],
                CVArray.bgr [[(1, 2, 3)]]], 2) ∧
    ((∀ k, k < ([CVArray.bgr [[(1, 2, 3)]], CVArray.chan1 [[255]]] : Store).length →
        ([CVArray.bgr [[(1, 2, 3)]], CVArray.chan1 [[255]],
          CVArray.bgr [[(1, 2, 3)]]] : Store).get? k
          = ([CVArray.bgr [[(1, 2, 3)]], CVArray.chan1 [[255]]] : Store).get? k) ∧
      readBGR [CVArray.bgr [[(1, 2, 3)]], CVArray.chan1 [[255]],
          CVArray.bgr [[(1, 2, 3)]]] 0
        = readBGR [CVArray.bgr [[(1, 2, 3)]], CVArray.chan1 [[255]]] 0 ∧
      readMask [CVArray.bgr [[(1, 2, 3)]], CVArray.chan1 [[255]],
          CVArray.bgr [[(1, 2, 3)]]] 1
        = readMask [CVArray.bgr [[(1, 2, 3)]], CVArray.chan1 [[255]]] 1 ∧
      2 = ([CVArray.bgr [[(1, 2, 3)]], CVArray.chan1 [[255]]] : Store).length ∧
      ([CVArray.bgr [[(1, 2, 3)]], CVArray.chan1 [[255]],
        CVArray.bgr [[(1, 2, 3)]]] : Store).length
        = ([CVArray.bgr [[(1, 2, 3)]], CVArray.chan1 [[255]]] : Store).length + 1 ∧
      (∃ img m out,
        readBGR [CVArray.bgr [[(1, 2, 3)]], CVArray.chan1 [[255]]] 0 = some img ∧
        readMask [CVArray.bgr [[(1, 2, 3)]], CVArray.chan1 [[255]]] 1 = some m ∧
        apply_mask (some img) (some m) = .ok out ∧
        ([CVArray.bgr [[(1, 2, 3)]], CVArray.chan1 [[255]],
          CVArray.bgr [[(1, 2, 3)]]] : Store).get? 2
          = some (CVArray.bgr out))) :=
  ⟨rfl,
    claim_C9 [CVArray.bgr [[(1, 2, 3)]], CVArray.chan1 [[255]]] 0 1
      [CVArray.bgr [[(1, 2, 3)]], CVArray.chan1 [[255]],
        CVArray.bgr [[(1, 2, 3)]]] 2 rfl⟩

/-- Witness for C10 on a concrete 1×2 image with mask values 7 and 0: the
nonzero-but-not-255 value keeps the pixel, the zero value clears it. -/
theorem claim_C10_witness :
    npSize ([[(1, 2, 3), (4, 5, 6)]] : BGRImage) ≠ 0 ∧
    List.Forall₂ (fun (r : List Vec3) (s : List Nat) => r.length = s.length)
      [[(1, 2, 3), (4, 5, 6)]] [[7, 0]] ∧
    (∃ res : BGRImage,
      apply_mask (some [[(1, 2, 3), (4, 5, 6)]]) (some [[7, 0]]) = .ok res ∧
      ∀ (i j : Nat) (p : Vec3) (v : Nat),
        ((([[(1, 2, 3), (4, 5, 6)]] : BGRImage).get? i).bind (fun r => r.get? j))
          = some p →
        ((([[7, 0]] : Mask).get? i).bind (fun r => r.get? j)) = some v →
        ((res.get? i).bind (fun r => r.get? j))
          = some (if v ≠ 0 then p else ((0 : Int), (0 : Int), (0 : Int)))) :=
  ⟨by decide, by simp,
    claim_C10 [[(1, 2, 3), (4, 5, 6)]] [[7, 0]] (by decide) (by simp)⟩

end CombineMasks
